import Mathlib

/-!
Verification development for the family-expense-tracker repository.

Shallow embedding of the two cores described in the design document:
the environment-scoped path resolver (`src/utils/environment.ts`) and the
family invite lifecycle manager (the family service and auth service in
`src/services`).  Timestamps are modelled as natural numbers counting
milliseconds; the external document store is modelled as association lists
from document id to document record, and every operation returns the
post-state of the store together with an `Except` result carrying the
exact error message strings of the source.
-/

namespace FamilyExpenseTracker

/-! ## Environment configuration (`src/utils/environment.ts`)

The source reads `import.meta.env` variables.  We model the environment as a
record of strings, with the empty string standing for an unset variable
(the source coalesces unset values to `''` with `|| ''`). -/

structure ImportMetaEnv where
  appEnvVar : String            -- VITE_APP_ENV
  useEmulatorsVar : String      -- VITE_USE_EMULATORS
  firestoreRootPathVar : String -- VITE_FIRESTORE_ROOT_PATH
  apiKey : String               -- VITE_FIREBASE_API_KEY
  projectId : String            -- VITE_FIREBASE_PROJECT_ID
deriving Repr, DecidableEq

/-- `getAppEnvironment`: 'production' and 'preview' map to themselves,
anything else is 'local'. -/
def getAppEnvironment (e : ImportMetaEnv) : String :=
  if e.appEnvVar = "production" then "production"
  else if e.appEnvVar = "preview" then "preview"
  else "local"

/-- `useEmulators`: true exactly when VITE_USE_EMULATORS is the string 'true'. -/
def useEmulators (e : ImportMetaEnv) : Bool :=
  e.useEmulatorsVar = "true"

/-- `getFirestoreRootPath`: the raw variable, with unset coalesced to `''`
(`rootPath || ''`); under our encoding unset already is `""`, so this is the
field itself. -/
def getFirestoreRootPath (e : ImportMetaEnv) : String :=
  e.firestoreRootPathVar

/-- `getCollectionPath`: no root path means no prefixing (local emulators),
otherwise the root path is prepended with a slash. -/
def getCollectionPath (e : ImportMetaEnv) (collectionName : String) : String :=
  let rootPath := getFirestoreRootPath e
  if rootPath = "" then collectionName
  else rootPath ++ "/" ++ collectionName

/-- `getDocumentPath`: collection path, a slash, and the document id.  The
source performs no validation of `documentId`. -/
def getDocumentPath (e : ImportMetaEnv) (collectionName documentId : String) : String :=
  getCollectionPath e collectionName ++ "/" ++ documentId

/-- `validateEnvironmentConfig`: collects the missing-credential messages in
source order, warns (without failing) when the root path is unset outside
local mode, and throws one aggregated message when the error list is
non-empty.  The first component of the result is the list of warnings the
source sends to `console.warn`; the second is the thrown/ok outcome. -/
def validateEnvironmentConfig (e : ImportMetaEnv) : List String × Except String Unit :=
  let errors : List String :=
    (if e.apiKey = "" ∧ useEmulators e = false then ["VITE_FIREBASE_API_KEY is required"] else [])
      ++ (if e.projectId = "" then ["VITE_FIREBASE_PROJECT_ID is required"] else [])
  let warnings : List String :=
    if getAppEnvironment e ≠ "local" ∧ getFirestoreRootPath e = "" then
      ["VITE_FIRESTORE_ROOT_PATH is not set. Data will be stored at the root level of Firestore."]
    else []
  (warnings,
   if errors.length > 0 then
     Except.error ("Environment configuration errors:\n"
       ++ String.intercalate "\n" (errors.map (fun s => "  - " ++ s)))
   else Except.ok ())

/-! ## Document store model

The Firestore documents the family service touches.  Timestamps are
milliseconds (`Nat`); `serverTimestamp()` is modelled by the `now` argument
each operation receives.  Collections are association lists from document
id to record; lookups return the first binding. -/

structure UserDoc where
  email : String
  displayName : String
  families : List String
  updatedAt : Nat
deriving Repr, DecidableEq

structure Family where
  name : String
  createdBy : String
  members : List String
  createdAt : Nat
  updatedAt : Nat
deriving Repr, DecidableEq

structure Invite where
  familyId : String
  familyName : String
  invitedBy : String
  createdAt : Nat
  expiresAt : Nat
  status : String
deriving Repr, DecidableEq

structure Store where
  users : List (String × UserDoc)
  families : List (String × Family)
  invites : List (String × Invite)
deriving Repr, DecidableEq

/-- First-binding lookup in an association list keyed by document id. -/
def lookupKey {α : Type} : List (String × α) → String → Option α
  | [], _ => none
  | (k, v) :: rest, key => if k = key then some v else lookupKey rest key

/-- Replace the first binding of `key`, or append one if absent (Firestore
`setDoc` / `updateDoc` after a successful read). -/
def setKey {α : Type} : List (String × α) → String → α → List (String × α)
  | [], key, v => [(key, v)]
  | (k, w) :: rest, key, v =>
      if k = key then (key, v) :: rest else (k, w) :: setKey rest key v

/-- `getUserById` (auth service): read of the user document. -/
def getUserById (s : Store) (userId : String) : Option UserDoc :=
  lookupKey s.users userId

/-- `getFamilyById`: read of the family document. -/
def getFamilyById (s : Store) (familyId : String) : Option Family :=
  lookupKey s.families familyId

/-- `getInvite`: read of the invite document. -/
def getInvite (s : Store) (inviteId : String) : Option Invite :=
  lookupKey s.invites inviteId

/-- Firestore `arrayUnion`: append the element only if it is absent. -/
def arrayUnion (xs : List String) (x : String) : List String :=
  if x ∈ xs then xs else xs ++ [x]

/-! ## Auth-service mutation (`addFamilyToUser`)

Reads the user document; a missing document throws (caught and re-thrown as
'Failed to add family'); when the family id is already present nothing is
written; otherwise the families array is extended and `updatedAt` refreshed. -/

def addFamilyToUser (now : Nat) (userId familyId : String) (s : Store) :
    Store × Except String Unit :=
  match getUserById s userId with
  | none => (s, Except.error "Failed to add family")
  | some u =>
      if familyId ∈ u.families then (s, Except.ok ())
      else
        let u2 := { u with families := u.families ++ [familyId], updatedAt := now }
        ({ s with users := setKey s.users userId u2 }, Except.ok ())

/-! ## Family service (`family-service`)

Each operation takes the authenticated caller (`Option String`, `none` when
no user is signed in), the current wall-clock time in milliseconds, and the
store; it returns the post-state together with the result. -/

/-- Seven days in milliseconds: the fixed invite-expiry policy
(`expiresAt.setDate(expiresAt.getDate() + 7)`). -/
def sevenDaysMs : Nat := 7 * 24 * 60 * 60 * 1000

/-- `createFamilyInvite`: membership-checked creation of a pending invite
expiring seven days from now.  `newInviteId` is the id produced by the
external `generateId()`. -/
def createFamilyInvite (authUser : Option String) (now : Nat)
    (newInviteId familyId : String) (s : Store) : Store × Except String Invite :=
  match authUser with
  | none => (s, Except.error "You must be logged in")
  | some uid =>
      match getFamilyById s familyId with
      | none => (s, Except.error "Family not found")
      | some family =>
          if uid ∉ family.members then
            (s, Except.error "You are not a member of this family")
          else
            let invite : Invite :=
              { familyId := familyId
                familyName := family.name
                invitedBy := uid
                createdAt := now
                expiresAt := now + sevenDaysMs
                status := "pending" }
            ({ s with invites := setKey s.invites newInviteId invite },
             Except.ok invite)

/-- Accept-time mutation (a): add the caller to the family member set via
`arrayUnion` and refresh `updatedAt`. -/
def addMemberToFamilyDoc (now : Nat) (familyId : String) (family : Family)
    (uid : String) (s : Store) : Store :=
  let f2 := { family with members := arrayUnion family.members uid, updatedAt := now }
  { s with families := setKey s.families familyId f2 }

/-- Accept-time mutation (c): flip the invite status to accepted. -/
def markInviteAccepted (inviteId : String) (invite : Invite) (s : Store) : Store :=
  { s with invites := setKey s.invites inviteId ({ invite with status := "accepted" }) }

/-- `acceptFamilyInvite`: the precondition checks in source order, then the
three mutations — member-add, family-add, status-flip — in source order.
A failure of `addFamilyToUser` is caught and re-thrown as
'Failed to join family' (with the member-add already committed, the
documented inconsistency window). -/
def acceptFamilyInvite (authUser : Option String) (now : Nat)
    (inviteId : String) (s : Store) : Store × Except String Family :=
  match authUser with
  | none => (s, Except.error "You must be logged in to accept an invite")
  | some uid =>
      match getInvite s inviteId with
      | none => (s, Except.error "Invite not found")
      | some invite =>
          if invite.status ≠ "pending" then
            (s, Except.error "This invite has already been used or expired")
          else if invite.expiresAt < now then
            (s, Except.error "This invite has expired")
          else
            match getFamilyById s invite.familyId with
            | none => (s, Except.error "Family not found")
            | some family =>
                if uid ∈ family.members then
                  (s, Except.error "You are already a member of this family")
                else
                  let s1 := addMemberToFamilyDoc now invite.familyId family uid s
                  match addFamilyToUser now uid invite.familyId s1 with
                  | (s2, Except.error _) => (s2, Except.error "Failed to join family")
                  | (s2, Except.ok ()) =>
                      (markInviteAccepted inviteId invite s2,
                       Except.ok { family with members := family.members ++ [uid] })

/-- `removeFamilyMember`: admin-only removal, never of the admin. -/
def removeFamilyMember (authUser : Option String) (now : Nat)
    (familyId memberId : String) (s : Store) : Store × Except String Unit :=
  match authUser with
  | none => (s, Except.error "You must be logged in")
  | some uid =>
      match getFamilyById s familyId with
      | none => (s, Except.error "Family not found")
      | some family =>
          if family.createdBy ≠ uid then
            (s, Except.error "Only the family admin can remove members")
          else if memberId = family.createdBy then
            (s, Except.error "Cannot remove the family admin")
          else
            let f2 := { family with
              members := family.members.filter (fun m => m ≠ memberId),
              updatedAt := now }
            ({ s with families := setKey s.families familyId f2 }, Except.ok ())

/-- `leaveFamily`: self-removal for non-admin members. -/
def leaveFamily (authUser : Option String) (now : Nat) (familyId : String)
    (s : Store) : Store × Except String Unit :=
  match authUser with
  | none => (s, Except.error "You must be logged in")
  | some uid =>
      match getFamilyById s familyId with
      | none => (s, Except.error "Family not found")
      | some family =>
          if family.createdBy = uid then
            (s, Except.error "Family admin cannot leave. Transfer ownership or delete the family.")
          else
            let f2 := { family with
              members := family.members.filter (fun m => m ≠ uid),
              updatedAt := now }
            ({ s with families := setKey s.families familyId f2 }, Except.ok ())

/-- The `accept` preconditions of the design document, in check order:
authenticated caller, invite present, status pending, not past expiry,
family present, caller not already a member. -/
def acceptPre (authUser : Option String) (now : Nat) (inviteId : String)
    (s : Store) : Bool :=
  match authUser with
  | none => false
  | some uid =>
      match getInvite s inviteId with
      | none => false
      | some invite =>
          if invite.status = "pending" ∧ now ≤ invite.expiresAt then
            match getFamilyById s invite.familyId with
            | none => false
            | some family => decide (uid ∉ family.members)
          else false

/-- Whether an `Except` result is an error. -/
def isErr {ε α : Type} : Except ε α → Bool
  | Except.error _ => true
  | Except.ok _ => false

/-! ## Concrete fixtures used by the closed witness theorems -/

/-- A production environment with root path `environments/production`. -/
def prodEnv : ImportMetaEnv :=
  { appEnvVar := "production", useEmulatorsVar := "false"
    firestoreRootPathVar := "environments/production"
    apiKey := "key", projectId := "proj" }

/-- A local-development environment: emulators, no root path. -/
def localEnv : ImportMetaEnv :=
  { appEnvVar := "local", useEmulatorsVar := "true"
    firestoreRootPathVar := "", apiKey := "", projectId := "demo" }

/-- A preview environment whose root path was left unset. -/
def previewNoRoot : ImportMetaEnv :=
  { appEnvVar := "preview", useEmulatorsVar := "false"
    firestoreRootPathVar := "", apiKey := "key", projectId := "proj" }

/-- An environment with no credentials at all and emulators off. -/
def bareEnv : ImportMetaEnv :=
  { appEnvVar := "preview", useEmulatorsVar := "false"
    firestoreRootPathVar := "environments/preview", apiKey := "", projectId := "" }

def userU1 : UserDoc :=
  { email := "alice@example.com", displayName := "Alice", families := ["f1"], updatedAt := 0 }

def userU2 : UserDoc :=
  { email := "bob@example.com", displayName := "Bob", families := [], updatedAt := 0 }

def familyF1 : Family :=
  { name := "Smith Family", createdBy := "u1", members := ["u1"], createdAt := 0, updatedAt := 0 }

def inviteI1 : Invite :=
  { familyId := "f1", familyName := "Smith Family", invitedBy := "u1"
    createdAt := 0, expiresAt := sevenDaysMs, status := "pending" }

/-- Store after: u1 created family f1 and invite i1, u2 signed up. -/
def store1 : Store :=
  { users := [("u1", userU1), ("u2", userU2)]
    families := [("f1", familyF1)]
    invites := [("i1", inviteI1)] }

def userU3 : UserDoc :=
  { email := "carol@example.com", displayName := "Carol", families := ["f2"], updatedAt := 0 }

def familyF2 : Family :=
  { name := "Jones Family", createdBy := "u1", members := ["u1", "u3"]
    createdAt := 0, updatedAt := 0 }

/-- An already-accepted invite for f2. -/
def inviteI2 : Invite :=
  { familyId := "f2", familyName := "Jones Family", invitedBy := "u1"
    createdAt := 0, expiresAt := sevenDaysMs, status := "accepted" }

/-- A still-pending invite for f2 whose expiry (time 10) is already past. -/
def inviteI3 : Invite :=
  { familyId := "f2", familyName := "Jones Family", invitedBy := "u1"
    createdAt := 3, expiresAt := 10, status := "pending" }

/-- A pending, unexpired invite for f2 used to exercise the already-a-member
error. -/
def inviteI4 : Invite :=
  { familyId := "f2", familyName := "Jones Family", invitedBy := "u1"
    createdAt := 0, expiresAt := sevenDaysMs, status := "pending" }

/-- Store with a second family f2 = {u1, u3} and the three conflict invites. -/
def store2 : Store :=
  { users := [("u1", userU1), ("u2", userU2), ("u3", userU3)]
    families := [("f1", familyF1), ("f2", familyF2)]
    invites := [("i2", inviteI2), ("i3", inviteI3), ("i4", inviteI4)] }

/-! ## Association-list lemmas -/

theorem lookupKey_setKey_self {α : Type} (l : List (String × α)) (k : String) (v : α) :
    lookupKey (setKey l k v) k = some v := by
  induction l with
  | nil => simp [setKey, lookupKey]
  | cons hd tl ih =>
      obtain ⟨k2, w⟩ := hd
      by_cases h : k2 = k
      · simp [setKey, h, lookupKey]
      · simp [setKey, h, lookupKey, ih]

theorem lookupKey_setKey_ne {α : Type} (l : List (String × α)) (k key : String) (v : α)
    (h : key ≠ k) : lookupKey (setKey l k v) key = lookupKey l key := by
  induction l with
  | nil => simp [setKey, lookupKey, Ne.symm h]
  | cons hd tl ih =>
      obtain ⟨k2, w⟩ := hd
      by_cases h2 : k2 = k
      · subst h2
        simp [setKey, lookupKey, Ne.symm h]
      · simp [setKey, h2, lookupKey, ih]

/-! ## Path-resolver claims -/

/-- C5: for every non-empty collection name `c` and non-empty document id `d`,
`getDocumentPath c d` equals `getCollectionPath c ++ "/" ++ d`, and
`getCollectionPath c` is `c` itself when the configured root path is empty
(local mode) and `rootPath ++ "/" ++ c` otherwise. -/
theorem getDocumentPath_composes (e : ImportMetaEnv) (c d : String)
    (hc : c ≠ "") (hd : d ≠ "") :
    getDocumentPath e c d = getCollectionPath e c ++ "/" ++ d
      ∧ (getFirestoreRootPath e = "" → getCollectionPath e c = c)
      ∧ (getFirestoreRootPath e ≠ "" →
          getCollectionPath e c = getFirestoreRootPath e ++ "/" ++ c) := by
  refine ⟨rfl, ?_, ?_⟩ <;> intro h <;> simp [getCollectionPath, h]

/-- Witness for C5 at the production fixture. -/
theorem getDocumentPath_composes_witness :
    getDocumentPath prodEnv "users" "u1" = getCollectionPath prodEnv "users" ++ "/" ++ "u1"
      ∧ (getFirestoreRootPath prodEnv = "" → getCollectionPath prodEnv "users" = "users")
      ∧ (getFirestoreRootPath prodEnv ≠ "" →
          getCollectionPath prodEnv "users" =
            getFirestoreRootPath prodEnv ++ "/" ++ "users") :=
  getDocumentPath_composes prodEnv "users" "u1" (by decide) (by decide)

/-- C9 counterexample: with an empty document id the source raises no error at
all — `getDocumentPath` is a total string function and simply returns the
collection path followed by a dangling slash. -/
theorem getDocumentPath_emptyId_cex :
    getDocumentPath localEnv "users" "" = "users/" := by decide

/-- C9 (amended): `getDocumentPath c ""` does not fail fast; it returns
`getCollectionPath c ++ "/"`, a path with an empty final segment. -/
theorem getDocumentPath_emptyId (e : ImportMetaEnv) (c : String) :
    getDocumentPath e c "" = getCollectionPath e c ++ "/" := by
  simp [getDocumentPath]

/-- C6 counterexample: in preview mode with the root path unset but every
credential present, `validateEnvironmentConfig` succeeds (it only warns),
contradicting the claim that an unset root prefix outside local mode raises
a configuration error. -/
theorem validateEnvironmentConfig_rootPath_cex :
    getAppEnvironment previewNoRoot ≠ "local"
      ∧ getFirestoreRootPath previewNoRoot = ""
      ∧ (validateEnvironmentConfig previewNoRoot).2 = Except.ok ()
      ∧ (validateEnvironmentConfig previewNoRoot).1 ≠ [] := by
  refine ⟨by decide, by decide, rfl, by decide⟩

/-- C6 (amended): `validateEnvironmentConfig` fails exactly when a required
credential is missing (the API key while emulators are off, or the project
id), the single raised error aggregates every missing credential into one
message, and an unset root path outside local mode produces only a warning,
never an error. -/
theorem validateEnvironmentConfig_aggregates :
    (∀ e : ImportMetaEnv,
        isErr (validateEnvironmentConfig e).2 = true
          ↔ ((e.apiKey = "" ∧ useEmulators e = false) ∨ e.projectId = ""))
      ∧ (∀ e : ImportMetaEnv, e.apiKey = "" → useEmulators e = false → e.projectId = "" →
          (validateEnvironmentConfig e).2 = Except.error
            ("Environment configuration errors:\n  - VITE_FIREBASE_API_KEY is required\n  - VITE_FIREBASE_PROJECT_ID is required"))
      ∧ (∀ e : ImportMetaEnv, getAppEnvironment e ≠ "local" → getFirestoreRootPath e = "" →
          (validateEnvironmentConfig e).1 ≠ []) := by
  refine ⟨?_, ?_, ?_⟩
  · intro e
    by_cases h1 : e.apiKey = "" ∧ useEmulators e = false <;>
      by_cases h2 : e.projectId = "" <;>
        simp [validateEnvironmentConfig, h1, h2, isErr]
  · intro e hk hm hp
    simp [validateEnvironmentConfig, hk, hm, hp]
    rfl
  · intro e he hr
    simp [validateEnvironmentConfig, he, hr]

/-- Witness for C6 (amended) at the credential-free fixture. -/
theorem validateEnvironmentConfig_aggregates_witness :
    (isErr (validateEnvironmentConfig bareEnv).2 = true
        ↔ ((bareEnv.apiKey = "" ∧ useEmulators bareEnv = false) ∨ bareEnv.projectId = ""))
      ∧ (validateEnvironmentConfig bareEnv).2 = Except.error
          ("Environment configuration errors:\n  - VITE_FIREBASE_API_KEY is required\n  - VITE_FIREBASE_PROJECT_ID is required")
      ∧ (validateEnvironmentConfig previewNoRoot).1 ≠ [] :=
  ⟨validateEnvironmentConfig_aggregates.1 bareEnv,
   validateEnvironmentConfig_aggregates.2.1 bareEnv rfl rfl rfl,
   validateEnvironmentConfig_aggregates.2.2 previewNoRoot (by decide) rfl⟩

/-! ## Invite lifecycle claims -/

/-- C8: `addFamilyToUser` is idempotent: after a successful first call, a
second call with the same user and family returns the same store unchanged
and succeeds — no duplicate entry is appended and no error is raised. -/
theorem addFamilyToUser_idempotent (now now2 : Nat) (userId familyId : String)
    (s : Store) (h : (addFamilyToUser now userId familyId s).2 = Except.ok ()) :
    addFamilyToUser now2 userId familyId (addFamilyToUser now userId familyId s).1
      = ((addFamilyToUser now userId familyId s).1, Except.ok ()) := by
  cases hu : getUserById s userId with
  | none => simp [addFamilyToUser, hu] at h
  | some u =>
      by_cases hf : familyId ∈ u.families
      · simp [addFamilyToUser, hu, hf]
      · have h1 : addFamilyToUser now userId familyId s
            = ({ s with
                  users :=
                    setKey s.users userId
                      { u with families := u.families ++ [familyId], updatedAt := now } },
               Except.ok ()) := by
          simp [addFamilyToUser, hu, hf]
        rw [h1]
        simp [addFamilyToUser, getUserById, lookupKey_setKey_self]

/-- Witness for C8: u2 gains family f1, then the second call is a no-op. -/
theorem addFamilyToUser_idempotent_witness :
    addFamilyToUser 6 "u2" "f1" (addFamilyToUser 5 "u2" "f1" store1).1
      = ((addFamilyToUser 5 "u2" "f1" store1).1, Except.ok ()) :=
  addFamilyToUser_idempotent 5 6 "u2" "f1" store1 rfl

/-- C4: every invite created by `createFamilyInvite` at time `now` is stored
with `expiresAt = now + 7 days` exactly and status pending (and is the value
returned to the caller). -/
theorem createFamilyInvite_expiry (authUid : String) (now : Nat)
    (newInviteId familyId : String) (s : Store) (fam : Family)
    (hfam : getFamilyById s familyId = some fam) (hmem : authUid ∈ fam.members) :
    ∃ inv : Invite,
      createFamilyInvite (some authUid) now newInviteId familyId s
          = ({ s with invites := setKey s.invites newInviteId inv }, Except.ok inv)
        ∧ inv.expiresAt = now + sevenDaysMs
        ∧ inv.status = "pending"
        ∧ getInvite (createFamilyInvite (some authUid) now newInviteId familyId s).1
            newInviteId = some inv := by
  refine ⟨{ familyId := familyId, familyName := fam.name, invitedBy := authUid,
            createdAt := now, expiresAt := now + sevenDaysMs, status := "pending" },
          ?_, rfl, rfl, ?_⟩
  · simp [createFamilyInvite, hfam, hmem]
  · simp [createFamilyInvite, hfam, hmem, getInvite, lookupKey_setKey_self]

/-- Witness for C4: u1 invites into f1 at time 100. -/
theorem createFamilyInvite_expiry_witness :
    ∃ inv : Invite,
      createFamilyInvite (some "u1") 100 "i2" "f1" store1
          = ({ store1 with invites := setKey store1.invites "i2" inv }, Except.ok inv)
        ∧ inv.expiresAt = 100 + sevenDaysMs
        ∧ inv.status = "pending"
        ∧ getInvite (createFamilyInvite (some "u1") 100 "i2" "f1" store1).1 "i2"
            = some inv :=
  createFamilyInvite_expiry "u1" 100 "i2" "f1" store1 familyF1 rfl (by decide)

/-- C7: with the creator as target, `removeFamilyMember` always fails and
writes nothing, whoever the caller is; `leaveFamily` called by the creator
always fails with the admin-cannot-leave error; and under every
remove/leave call the creator remains in the family member set. -/
theorem creator_never_removed (s : Store) (familyId : String) (fam : Family)
    (hfam : getFamilyById s familyId = some fam) :
    (∀ (authUser : Option String) (now : Nat),
        (removeFamilyMember authUser now familyId fam.createdBy s).1 = s
          ∧ isErr (removeFamilyMember authUser now familyId fam.createdBy s).2 = true)
      ∧ (∀ now : Nat, leaveFamily (some fam.createdBy) now familyId s
          = (s, Except.error
              "Family admin cannot leave. Transfer ownership or delete the family."))
      ∧ (∀ (authUser : Option String) (now : Nat) (memberId : String),
          fam.createdBy ∈ fam.members →
          ∃ f2, getFamilyById (removeFamilyMember authUser now familyId memberId s).1
                  familyId = some f2
            ∧ fam.createdBy ∈ f2.members)
      ∧ (∀ (authUser : Option String) (now : Nat),
          fam.createdBy ∈ fam.members →
          ∃ f2, getFamilyById (leaveFamily authUser now familyId s).1 familyId = some f2
            ∧ fam.createdBy ∈ f2.members) := by
  refine ⟨?_, ?_, ?_, ?_⟩
  · intro a now
    cases a with
    | none => simp [removeFamilyMember, isErr]
    | some uid =>
        by_cases h : fam.createdBy = uid
        · simp [removeFamilyMember, hfam, h, isErr]
        · simp [removeFamilyMember, hfam, h, isErr]
  · intro now
    simp [leaveFamily, hfam]
  · intro a now mid hc
    cases a with
    | none => exact ⟨fam, by simp [removeFamilyMember, hfam], hc⟩
    | some uid =>
        by_cases h1 : fam.createdBy = uid
        · by_cases h2 : mid = fam.createdBy
          · exact ⟨fam, by simp [removeFamilyMember, hfam, h1, h2], hc⟩
          · have hmain : removeFamilyMember (some uid) now familyId mid s
                = ({ s with
                      families :=
                        setKey s.families familyId
                          { fam with
                            members := fam.members.filter (fun m => m ≠ mid),
                            updatedAt := now } },
                   Except.ok ()) := by
              have h2b : ¬mid = uid := h1 ▸ h2
              simp [removeFamilyMember, hfam, h1, h2b]
            refine ⟨{ fam with
                      members := fam.members.filter (fun m => m ≠ mid),
                      updatedAt := now }, ?_, ?_⟩
            · rw [hmain]
              simp [getFamilyById, lookupKey_setKey_self]
            · simp [List.mem_filter, hc, Ne.symm h2]
        · exact ⟨fam, by simp [removeFamilyMember, hfam, h1], hc⟩
  · intro a now hc
    cases a with
    | none => exact ⟨fam, by simp [leaveFamily, hfam], hc⟩
    | some uid =>
        by_cases h1 : fam.createdBy = uid
        · exact ⟨fam, by simp [leaveFamily, hfam, h1], hc⟩
        · have hmain : leaveFamily (some uid) now familyId s
              = ({ s with
                    families :=
                      setKey s.families familyId
                        { fam with
                          members := fam.members.filter (fun m => m ≠ uid),
                          updatedAt := now } },
                 Except.ok ()) := by
            simp [leaveFamily, hfam, h1]
          refine ⟨{ fam with
                    members := fam.members.filter (fun m => m ≠ uid),
                    updatedAt := now }, ?_, ?_⟩
          · rw [hmain]
            simp [getFamilyById, lookupKey_setKey_self]
          · simp [List.mem_filter, hc, h1]

/-- Witness for C7 at family f1 of the fixture store. -/
theorem creator_never_removed_witness :
    ((removeFamilyMember (some "u1") 9 "f1" familyF1.createdBy store1).1 = store1
        ∧ isErr (removeFamilyMember (some "u1") 9 "f1" familyF1.createdBy store1).2 = true)
      ∧ leaveFamily (some familyF1.createdBy) 9 "f1" store1
          = (store1, Except.error
              "Family admin cannot leave. Transfer ownership or delete the family.")
      ∧ (∃ f2, getFamilyById (removeFamilyMember (some "u1") 9 "f1" "u2" store1).1
                "f1" = some f2 ∧ familyF1.createdBy ∈ f2.members)
      ∧ (∃ f2, getFamilyById (leaveFamily (some "u2") 9 "f1" store1).1 "f1" = some f2
          ∧ familyF1.createdBy ∈ f2.members) :=
  ⟨(creator_never_removed store1 "f1" familyF1 rfl).1 (some "u1") 9,
   (creator_never_removed store1 "f1" familyF1 rfl).2.1 9,
   (creator_never_removed store1 "f1" familyF1 rfl).2.2.1 (some "u1") 9 "u2" (by decide),
   (creator_never_removed store1 "f1" familyF1 rfl).2.2.2 (some "u2") 9 (by decide)⟩

/-- C10: a successful `removeFamilyMember` of a non-creator member removes the
member from the family members array but leaves every user document — in
particular the removed member's — untouched, so a families array that
contained the family keeps containing it: the two sides of the membership
link become asymmetric. -/
theorem removeFamilyMember_keeps_user_doc (s : Store) (familyId memberId caller : String)
    (now : Nat) (fam : Family) (hfam : getFamilyById s familyId = some fam)
    (hadmin : fam.createdBy = caller) (hne : memberId ≠ fam.createdBy) :
    (removeFamilyMember (some caller) now familyId memberId s).2 = Except.ok ()
      ∧ (removeFamilyMember (some caller) now familyId memberId s).1.users = s.users
      ∧ getFamilyById (removeFamilyMember (some caller) now familyId memberId s).1 familyId
          = some { fam with
                   members := fam.members.filter (fun m => m ≠ memberId)
                   updatedAt := now }
      ∧ memberId ∉ fam.members.filter (fun m => m ≠ memberId)
      ∧ getUserById (removeFamilyMember (some caller) now familyId memberId s).1 memberId
          = getUserById s memberId
      ∧ (∀ udoc : UserDoc, getUserById s memberId = some udoc → familyId ∈ udoc.families →
          ∃ udoc2, getUserById (removeFamilyMember (some caller) now familyId memberId s).1
                memberId = some udoc2
            ∧ familyId ∈ udoc2.families) := by
  have hmain : removeFamilyMember (some caller) now familyId memberId s
      = ({ s with
            families :=
              setKey s.families familyId
                { fam with
                  members := fam.members.filter (fun m => m ≠ memberId),
                  updatedAt := now } },
         Except.ok ()) := by
    have hne2 : ¬memberId = caller := hadmin ▸ hne
    simp [removeFamilyMember, hfam, hadmin, hne2]
  refine ⟨by rw [hmain], by rw [hmain], ?_, ?_, by rw [hmain]; rfl, ?_⟩
  · rw [hmain]
    simp [getFamilyById, lookupKey_setKey_self]
  · simp [List.mem_filter]
  · intro udoc hu hin
    exact ⟨udoc, by rw [hmain]; exact hu, hin⟩

/-- Witness for C10: u1 removes u3 from f2 while u3 still lists f2. -/
theorem removeFamilyMember_keeps_user_doc_witness :
    (removeFamilyMember (some "u1") 9 "f2" "u3" store2).2 = Except.ok ()
      ∧ (removeFamilyMember (some "u1") 9 "f2" "u3" store2).1.users = store2.users
      ∧ getFamilyById (removeFamilyMember (some "u1") 9 "f2" "u3" store2).1 "f2"
          = some { familyF2 with
                   members := familyF2.members.filter (fun m => m ≠ "u3")
                   updatedAt := 9 }
      ∧ "u3" ∉ familyF2.members.filter (fun m => m ≠ "u3")
      ∧ getUserById (removeFamilyMember (some "u1") 9 "f2" "u3" store2).1 "u3"
          = getUserById store2 "u3"
      ∧ (∀ udoc : UserDoc, getUserById store2 "u3" = some udoc → "f2" ∈ udoc.families →
          ∃ udoc2, getUserById (removeFamilyMember (some "u1") 9 "f2" "u3" store2).1 "u3"
                = some udoc2
            ∧ "f2" ∈ udoc2.families) :=
  removeFamilyMember_keeps_user_doc store2 "f2" "u3" "u1" 9 familyF2 rfl rfl (by decide)

/-- C2: whenever any `accept` precondition fails — caller not authenticated,
invite missing, status not pending, past expiry, family missing, or caller
already a member — `acceptFamilyInvite` returns an error and performs no
write: the whole store (invite, family and user documents) is unchanged. -/
theorem acceptFamilyInvite_no_precondition_no_write (authUser : Option String)
    (now : Nat) (inviteId : String) (s : Store)
    (h : acceptPre authUser now inviteId s = false) :
    (acceptFamilyInvite authUser now inviteId s).1 = s
      ∧ isErr (acceptFamilyInvite authUser now inviteId s).2 = true := by
  cases authUser with
  | none => simp [acceptFamilyInvite, isErr]
  | some uid =>
      cases hi : getInvite s inviteId with
      | none => simp [acceptFamilyInvite, hi, isErr]
      | some inv =>
          by_cases hst : inv.status = "pending"
          · by_cases hexp : inv.expiresAt < now
            · simp [acceptFamilyInvite, hi, hst, hexp, isErr]
            · cases hf : getFamilyById s inv.familyId with
              | none => simp [acceptFamilyInvite, hi, hst, hexp, hf, isErr]
              | some fam =>
                  by_cases hm : uid ∈ fam.members
                  · simp [acceptFamilyInvite, hi, hst, hexp, hf, hm, isErr]
                  · exfalso
                    simp [acceptPre, hi, hst, hf, hm, Nat.not_lt.mp hexp] at h
          · simp [acceptFamilyInvite, hi, hst, isErr]

/-- Witness for C2: u1, already a member of f1, tries to accept i1. -/
theorem acceptFamilyInvite_no_precondition_no_write_witness :
    (acceptFamilyInvite (some "u1") 0 "i1" store1).1 = store1
      ∧ isErr (acceptFamilyInvite (some "u1") 0 "i1" store1).2 = true :=
  acceptFamilyInvite_no_precondition_no_write (some "u1") 0 "i1" store1 (by decide)

/-- C3: the three state-conflict causes are reported with three pairwise
distinct user-facing messages: an already-accepted invite yields the
already-used message, a still-pending but past-expiry invite yields the
expiry-specific message (never the already-used one and no authorization or
not-found message), and a caller who is already a member yields the
already-a-member message. -/
theorem acceptFamilyInvite_conflict_errors :
    (∀ (s : Store) (uid : String) (now : Nat) (iid : String) (inv : Invite),
        getInvite s iid = some inv → inv.status = "accepted" →
        (acceptFamilyInvite (some uid) now iid s).2
          = Except.error "This invite has already been used or expired")
      ∧ (∀ (s : Store) (uid : String) (now : Nat) (iid : String) (inv : Invite),
          getInvite s iid = some inv → inv.status = "pending" → inv.expiresAt < now →
          (acceptFamilyInvite (some uid) now iid s).2
            = Except.error "This invite has expired")
      ∧ (∀ (s : Store) (uid : String) (now : Nat) (iid : String) (inv : Invite)
            (fam : Family),
          getInvite s iid = some inv → inv.status = "pending" → now ≤ inv.expiresAt →
          getFamilyById s inv.familyId = some fam → uid ∈ fam.members →
          (acceptFamilyInvite (some uid) now iid s).2
            = Except.error "You are already a member of this family")
      ∧ ("This invite has already been used or expired" ≠ "This invite has expired")
      ∧ ("This invite has already been used or expired"
          ≠ "You are already a member of this family")
      ∧ ("This invite has expired" ≠ "You are already a member of this family")
      ∧ ("This invite has expired" ≠ "Invite not found")
      ∧ ("This invite has expired" ≠ "Family not found")
      ∧ ("This invite has expired" ≠ "You must be logged in to accept an invite") := by
  refine ⟨?_, ?_, ?_, by decide, by decide, by decide, by decide, by decide, by decide⟩
  · intro s uid now iid inv hi hst
    simp [acceptFamilyInvite, hi, hst]
  · intro s uid now iid inv hi hst hexp
    simp [acceptFamilyInvite, hi, hst, hexp]
  · intro s uid now iid inv fam hi hst hexp hf hm
    simp [acceptFamilyInvite, hi, hst, Nat.not_lt.mpr hexp, hf, hm]

/-- Witness for C3 on the three conflict invites of the fixture store. -/
theorem acceptFamilyInvite_conflict_errors_witness :
    (acceptFamilyInvite (some "u2") 20 "i2" store2).2
        = Except.error "This invite has already been used or expired"
      ∧ (acceptFamilyInvite (some "u2") 20 "i3" store2).2
          = Except.error "This invite has expired"
      ∧ (acceptFamilyInvite (some "u3") 20 "i4" store2).2
          = Except.error "You are already a member of this family"
      ∧ ("This invite has already been used or expired" ≠ "This invite has expired") :=
  ⟨acceptFamilyInvite_conflict_errors.1 store2 "u2" 20 "i2" inviteI2 rfl rfl,
   acceptFamilyInvite_conflict_errors.2.1 store2 "u2" 20 "i3" inviteI3 rfl rfl (by decide),
   acceptFamilyInvite_conflict_errors.2.2.1 store2 "u3" 20 "i4" inviteI4 familyF2 rfl rfl
     (by decide) rfl (by decide),
   acceptFamilyInvite_conflict_errors.2.2.2.1⟩

/-- C1: when every `accept` precondition holds (the caller is an
authenticated user — whose user document exists, as signup guarantees — the
invite is pending and unexpired, the family exists and the caller is not yet
a member), `acceptFamilyInvite` applies exactly the three mutations in the
fixed source order — member-add, family-add, status-flip — and returns the
family with the caller appended to its members. -/
theorem acceptFamilyInvite_success (s : Store) (uid : String) (now : Nat)
    (iid : String) (inv : Invite) (fam : Family) (udoc : UserDoc)
    (hinv : getInvite s iid = some inv) (hst : inv.status = "pending")
    (hexp : now ≤ inv.expiresAt) (hfam : getFamilyById s inv.familyId = some fam)
    (hmem : uid ∉ fam.members) (huser : getUserById s uid = some udoc) :
    acceptFamilyInvite (some uid) now iid s
        = (markInviteAccepted iid inv
            (addFamilyToUser now uid inv.familyId
              (addMemberToFamilyDoc now inv.familyId fam uid s)).1,
           Except.ok { fam with members := fam.members ++ [uid] })
      ∧ getFamilyById (acceptFamilyInvite (some uid) now iid s).1 inv.familyId
          = some { fam with members := fam.members ++ [uid], updatedAt := now }
      ∧ getInvite (acceptFamilyInvite (some uid) now iid s).1 iid
          = some { inv with status := "accepted" }
      ∧ (∃ udoc2, getUserById (acceptFamilyInvite (some uid) now iid s).1 uid
            = some udoc2
          ∧ inv.familyId ∈ udoc2.families) := by
  have husers1 : getUserById (addMemberToFamilyDoc now inv.familyId fam uid s) uid
      = some udoc := by
    simpa [getUserById, addMemberToFamilyDoc] using huser
  have hadd : addFamilyToUser now uid inv.familyId
        (addMemberToFamilyDoc now inv.familyId fam uid s)
      = ((addFamilyToUser now uid inv.familyId
            (addMemberToFamilyDoc now inv.familyId fam uid s)).1, Except.ok ()) := by
    by_cases hin : inv.familyId ∈ udoc.families
    · simp [addFamilyToUser, husers1, hin]
    · simp [addFamilyToUser, husers1, hin]
  have hA : acceptFamilyInvite (some uid) now iid s
      = (markInviteAccepted iid inv
          (addFamilyToUser now uid inv.familyId
            (addMemberToFamilyDoc now inv.familyId fam uid s)).1,
         Except.ok { fam with members := fam.members ++ [uid] }) := by
    simp [acceptFamilyInvite, hinv, hst, Nat.not_lt.mpr hexp, hfam, hmem]
    rw [hadd]
  have hfams : (addFamilyToUser now uid inv.familyId
        (addMemberToFamilyDoc now inv.familyId fam uid s)).1.families
      = (addMemberToFamilyDoc now inv.familyId fam uid s).families := by
    by_cases hin : inv.familyId ∈ udoc.families
    · simp [addFamilyToUser, husers1, hin]
    · simp [addFamilyToUser, husers1, hin]
  refine ⟨hA, ?_, ?_, ?_⟩
  · rw [hA]
    have hmf : getFamilyById
        (markInviteAccepted iid inv
          (addFamilyToUser now uid inv.familyId
            (addMemberToFamilyDoc now inv.familyId fam uid s)).1) inv.familyId
        = lookupKey (addFamilyToUser now uid inv.familyId
            (addMemberToFamilyDoc now inv.familyId fam uid s)).1.families
            inv.familyId := rfl
    rw [hmf, hfams]
    simp [addMemberToFamilyDoc, lookupKey_setKey_self, arrayUnion, hmem]
  · rw [hA]
    simp [getInvite, markInviteAccepted, lookupKey_setKey_self]
  · rw [hA]
    have hmu : getUserById
        (markInviteAccepted iid inv
          (addFamilyToUser now uid inv.familyId
            (addMemberToFamilyDoc now inv.familyId fam uid s)).1) uid
        = lookupKey (addFamilyToUser now uid inv.familyId
            (addMemberToFamilyDoc now inv.familyId fam uid s)).1.users uid := rfl
    rw [hmu]
    by_cases hin : inv.familyId ∈ udoc.families
    · refine ⟨udoc, ?_, hin⟩
      have hx : (addFamilyToUser now uid inv.familyId
            (addMemberToFamilyDoc now inv.familyId fam uid s)).1
          = addMemberToFamilyDoc now inv.familyId fam uid s := by
        simp [addFamilyToUser, husers1, hin]
      rw [hx]
      exact husers1
    · refine ⟨{ udoc with families := udoc.families ++ [inv.familyId], updatedAt := now },
        ?_, by simp⟩
      have hx : (addFamilyToUser now uid inv.familyId
            (addMemberToFamilyDoc now inv.familyId fam uid s)).1.users
          = setKey (addMemberToFamilyDoc now inv.familyId fam uid s).users uid
              { udoc with families := udoc.families ++ [inv.familyId], updatedAt := now } := by
        simp [addFamilyToUser, husers1, hin]
      rw [hx, lookupKey_setKey_self]

/-- Witness for C1: u2 accepts invite i1 into family f1 at time 5. -/
theorem acceptFamilyInvite_success_witness :
    acceptFamilyInvite (some "u2") 5 "i1" store1
        = (markInviteAccepted "i1" inviteI1
            (addFamilyToUser 5 "u2" inviteI1.familyId
              (addMemberToFamilyDoc 5 inviteI1.familyId familyF1 "u2" store1)).1,
           Except.ok { familyF1 with members := familyF1.members ++ ["u2"] })
      ∧ getFamilyById (acceptFamilyInvite (some "u2") 5 "i1" store1).1 inviteI1.familyId
          = some { familyF1 with members := familyF1.members ++ ["u2"], updatedAt := 5 }
      ∧ getInvite (acceptFamilyInvite (some "u2") 5 "i1" store1).1 "i1"
          = some { inviteI1 with status := "accepted" }
      ∧ (∃ udoc2, getUserById (acceptFamilyInvite (some "u2") 5 "i1" store1).1 "u2"
            = some udoc2
          ∧ inviteI1.familyId ∈ udoc2.families) :=
  acceptFamilyInvite_success store1 "u2" 5 "i1" inviteI1 familyF1 userU2 rfl rfl
    (by decide) rfl (by decide) rfl

end FamilyExpenseTracker
